import Mathlib

/-!
Verification development for the crypto-api repository: a shallow embedding
of the TTL cache (`app/utils/cache.py`), the LiveCoinWatch gateway
(`app/services/livecoinwatch.py`), the validators (`app/utils/validators.py`)
and the response-building routing layer (`app/main.py`), together with
theorems settling the specification's claims about them.

Modelling conventions: Python floats become rationals (ℚ), timestamps become
integers (ℤ), upstream JSON payloads become an inductive `JVal`, the upstream
HTTP transport becomes a deterministic oracle function, and the two pieces of
mutable state (the cache dictionary and, for call-count properties, upstream
invocation counters) are threaded explicitly through each operation.
-/

namespace CryptoAPI

/-- JSON-like values as exchanged with the upstream provider and stored in the
cache. Numbers are modelled as rationals. -/
inductive JVal where
  | null : JVal
  | bool : Bool → JVal
  | num : ℚ → JVal
  | str : String → JVal
  | arr : List JVal → JVal
  | obj : List (String × JVal) → JVal

/-- Python truthiness (`if cached_data:`): None, empty string, zero, empty
list and empty dict are falsy; everything else is truthy. -/
def JVal.truthy : JVal → Bool
  | .null => false
  | .bool b => b
  | .num q => if q = 0 then false else true
  | .str s => if s = "" then false else true
  | .arr xs => if xs.isEmpty then false else true
  | .obj fs => if fs.isEmpty then false else true

/-- Dictionary field access: `d[k]` when `d` is an object holding key `k`. -/
def JVal.getField (j : JVal) (k : String) : Option JVal :=
  match j with
  | .obj fs => fs.lookup k
  | _ => none

/-- `d.get(k, default)`: the field when the key is present, else the default. -/
def JVal.getD (j : JVal) (k : String) (d : JVal) : JVal :=
  (j.getField k).getD d

/-- Iterating a JSON array (`for coin in coins_data:`); the upstream list
endpoint returns a JSON array. -/
def JVal.asArr : JVal → List JVal
  | .arr xs => xs
  | _ => []

/-- String-valued field with a default (`coin.get("name", "")`), assuming the
field, when present, is a string. -/
def JVal.getStrD (j : JVal) (k : String) (d : String) : String :=
  match j.getField k with
  | some (.str s) => s
  | _ => d

/-- Numeric field with a default (`data.get("rate", 0.0)`), assuming the
field, when present, is a number. -/
def JVal.getNumD (j : JVal) (k : String) (d : ℚ) : ℚ :=
  match j.getField k with
  | some (.num q) => q
  | _ => d

/-- Optional numeric field (`data.get("cap")`). -/
def JVal.getNumOpt (j : JVal) (k : String) : Option ℚ :=
  match j.getField k with
  | some (.num q) => some q
  | _ => none

/-! ### String helpers (Python `in`, `.lower()`, `.upper()`, `.strip()`) -/
/-- Whether the first list is a prefix of the second, on characters. -/
def isPrefixOfChars : List Char → List Char → Bool
  | [], _ => true
  | _ :: _, [] => false
  | a :: as, b :: bs => a == b && isPrefixOfChars as bs

/-- Whether `needle` occurs contiguously inside `hay` (Python `needle in hay`
on strings); the empty needle always occurs. -/
def containsChars (needle : List Char) : List Char → Bool
  | [] => isPrefixOfChars needle []
  | a :: t => isPrefixOfChars needle (a :: t) || containsChars needle t

/-- Python `needle in hay` for strings. -/
def strContains (hay needle : String) : Bool :=
  containsChars needle.toList hay.toList

/-- Python `s.lower()` (character-wise, as in the source's ASCII usage). -/
def lowerStr (s : String) : String :=
  String.mk (s.toList.map Char.toLower)

/-- Python `s.upper()` (character-wise, as in the source's ASCII usage). -/
def upperStr (s : String) : String :=
  String.mk (s.toList.map Char.toUpper)

/-- Python `s.strip()`: drop whitespace from both ends. -/
def trimStr (s : String) : String :=
  String.mk
    (((s.toList.dropWhile Char.isWhitespace).reverse.dropWhile
        Char.isWhitespace).reverse)

/-! ### Validators (`app/utils/validators.py`) -/
/-- The character class of the regex `^[A-Z0-9]+$`. -/
def isUpperAlnum (c : Char) : Bool :=
  (decide ('A' ≤ c) && decide (c ≤ 'Z')) || (decide ('0' ≤ c) && decide (c ≤ '9'))

/-- `re.match(r'^[A-Z0-9]+$', s)`: nonempty and all characters in `[A-Z0-9]`. -/
def matchesSymbolRegexp (s : String) : Bool :=
  !s.toList.isEmpty && s.toList.all isUpperAlnum

/-- `validate_crypto_symbol`: rejects the empty string, strips and uppercases,
rejects anything outside `^[A-Z0-9]+$` or longer than 10 characters, and
returns the normalized symbol. -/
def validate_crypto_symbol (symbol : String) : Except String String :=
  if symbol = "" then .error "Symbol must be a non-empty string"
  else
    let s := upperStr (trimStr symbol)
    if !matchesSymbolRegexp s then .error "Symbol must contain only letters and numbers"
    else if s.length < 1 || s.length > 10 then
      .error "Symbol must be between 1 and 10 characters"
    else .ok s

/-- The supported fiat currency codes. -/
def supported_currencies : List String :=
  ["USD", "EUR", "GBP", "JPY", "CAD", "AUD", "CHF", "CNY", "KRW", "INR"]

/-- `validate_currency`: rejects the empty string, strips and uppercases, and
accepts exactly the supported fiat codes. -/
def validate_currency (currency : String) : Except String String :=
  if currency = "" then .error "Currency must be a non-empty string"
  else
    let c := upperStr (trimStr currency)
    if supported_currencies.contains c then .ok c
    else .error ("Currency '" ++ c ++ "' not supported")

/-- `validate_limit`: integer in `[1, max_limit]`. -/
def validate_limit (limit : Nat) (max_limit : Nat) : Except String Nat :=
  if limit < 1 then .error "Limit must be at least 1"
  else if limit > max_limit then .error "Limit cannot exceed max"
  else .ok limit

/-! ### The TTL cache (`app/utils/cache.py`, class `SimpleCache`) -/
/-- The in-memory TTL cache: a TTL in time units and a table from string keys
to (value, insertion-timestamp) entries. The Python dict becomes a total
function to `Option`. -/
structure SimpleCache (α : Type) where
  ttl : ℤ
  entries : String → Option (α × ℤ)

/-- `SimpleCache.get` at time `now`: absent keys are a miss with no state
change; an entry older than `ttl` is deleted and reported as a miss; a fresh
entry's value is returned with no state change. Returns the result paired
with the possibly-updated cache. -/
def SimpleCache.get (c : SimpleCache α) (now : ℤ) (key : String) :
    Option α × SimpleCache α :=
  match c.entries key with
  | none => (none, c)
  | some e =>
    if now - e.2 > c.ttl then
      (none, { c with entries := fun k => if k = key then none else c.entries k })
    else
      (some e.1, c)

/-- `SimpleCache.set`: store the value under the key with the current
timestamp, overwriting any prior entry. -/
def SimpleCache.set (c : SimpleCache α) (now : ℤ) (key : String) (v : α) :
    SimpleCache α :=
  { c with entries := fun k => if k = key then some (v, now) else c.entries k }

/-- `SimpleCache.clear`: remove all entries. -/
def SimpleCache.clear (c : SimpleCache α) : SimpleCache α :=
  { c with entries := fun _ => none }

/-! ### The gateway (`app/services/livecoinwatch.py`, class `LiveCoinWatchService`) -/
/-- The single domain-error type raised by the service; it carries only a
message string, which the routing layer later inspects. -/
structure LiveCoinWatchError where
  msg : String

/-- Outcome of one upstream HTTP POST, as seen by `_make_request`: a 200 with
a JSON body, a non-200 status with a (possibly empty) JSON body, a connect
timeout, or another transport failure with a cause description. -/
inductive UpstreamOutcome where
  | ok : JVal → UpstreamOutcome
  | http : Nat → JVal → UpstreamOutcome
  | timeout : UpstreamOutcome
  | netError : String → UpstreamOutcome

/-- The upstream transport as a deterministic oracle from (endpoint, request
body) to an HTTP outcome. -/
def Oracle : Type := String → JVal → UpstreamOutcome

/-- Gateway state threaded through every operation: the shared cache plus
instrumentation counters — `upstreamCalls` counts invocations of
`_make_request` (actual upstream HTTP requests), `listingFetches` counts
invocations of the `get_coins_list` operation. -/
structure GwState where
  cache : SimpleCache JVal
  upstreamCalls : Nat
  listingFetches : Nat

/-- The description extracted from a non-2xx upstream body:
`error_data.get("error", {}).get("description", "Unknown error")`. -/
def errDescription (body : JVal) : String :=
  (body.getD "error" (.obj [])).getStrD "description" "Unknown error"

/-- `_make_request`: one upstream POST, classifying the HTTP outcome into a
returned JSON body or a `LiveCoinWatchError` with the source's message for
each case. Always counts one upstream call. -/
def makeRequest (up : Oracle) (endpoint : String) (data : JVal) (st : GwState) :
    Except LiveCoinWatchError JVal × GwState :=
  let st1 : GwState := { st with upstreamCalls := st.upstreamCalls + 1 }
  match up endpoint data with
  | .ok body => (.ok body, st1)
  | .http status body =>
    if status = 401 then (.error ⟨"Invalid API key or unauthorized access"⟩, st1)
    else if status = 404 then (.error ⟨"Endpoint not found"⟩, st1)
    else if status = 429 then (.error ⟨"Rate limit exceeded"⟩, st1)
    else
      (.error ⟨"API error (" ++ toString status ++ "): " ++ errDescription body⟩, st1)
  | .timeout => (.error ⟨"Request timeout - API may be unavailable"⟩, st1)
  | .netError cause => (.error ⟨"Network error: " ++ cause⟩, st1)

/-- The Python idiom `cached_data = cache.get(key)` followed by
`if cached_data:`: the cached value when the read hit **and** the value tests
truthy, otherwise nothing. -/
def cacheHit : Option JVal → Option JVal
  | some v => if v.truthy then some v else none
  | none => none

/-- Cache key `f"coin_{symbol}_{currency}"`. -/
def coinCacheKey (symbol currency : String) : String :=
  "coin_" ++ symbol ++ "_" ++ currency

/-- Cache key `f"coins_list_{currency}_{limit}_{offset}"`. -/
def listCacheKey (currency : String) (limit offset : Nat) : String :=
  "coins_list_" ++ currency ++ "_" ++ toString limit ++ "_" ++ toString offset

/-- Cache key `f"search_{query}_{currency}_{limit}"`. -/
def searchCacheKey (query currency : String) (limit : Nat) : String :=
  "search_" ++ query ++ "_" ++ currency ++ "_" ++ toString limit

/-- Cache key `f"market_overview_{currency}"`. -/
def overviewCacheKey (currency : String) : String :=
  "market_overview_" ++ currency

/-- Request body for `coins/single`. -/
def singlePayload (symbol currency : String) : JVal :=
  .obj [("currency", .str currency), ("code", .str symbol), ("meta", .bool true)]

/-- Request body for `coins/list` (sorted by rank ascending, no meta). -/
def listPayload (currency : String) (limit offset : Nat) : JVal :=
  .obj [("currency", .str currency), ("sort", .str "rank"),
        ("order", .str "ascending"), ("offset", .num offset),
        ("limit", .num limit), ("meta", .bool false)]

/-- Request body for `overview`. -/
def overviewPayload (currency : String) : JVal :=
  .obj [("currency", .str currency)]

/-- `get_single_coin`: consult the cache under `coin_{symbol}_{currency}`;
on a (truthy) hit return the cached payload; otherwise call upstream, cache a
successful result, and rewrap a "not found" error with the symbol. -/
def get_single_coin (up : Oracle) (now : ℤ) (symbol currency : String)
    (st : GwState) : Except LiveCoinWatchError JVal × GwState :=
  let cacheKey := coinCacheKey symbol currency
  let rd := st.cache.get now cacheKey
  let st1 : GwState := { st with cache := rd.2 }
  match cacheHit rd.1 with
  | some v => (.ok v, st1)
  | none =>
    match makeRequest up "coins/single" (singlePayload symbol currency) st1 with
    | (.ok result, st2) =>
      (.ok result, { st2 with cache := st2.cache.set now cacheKey result })
    | (.error e, st2) =>
      if strContains (lowerStr e.msg) "not found" then
        (.error ⟨"Cryptocurrency '" ++ symbol ++ "' not found"⟩, st2)
      else
        (.error e, st2)

/-- `get_coins_list`: consult the cache under
`coins_list_{currency}_{limit}_{offset}`; on a (truthy) hit return the cached
listing; otherwise call upstream and cache a successful result. Counts one
listing-operation invocation. -/
def get_coins_list (up : Oracle) (now : ℤ) (currency : String)
    (limit offset : Nat) (st : GwState) :
    Except LiveCoinWatchError JVal × GwState :=
  let st0 : GwState := { st with listingFetches := st.listingFetches + 1 }
  let cacheKey := listCacheKey currency limit offset
  let rd := st0.cache.get now cacheKey
  let st1 : GwState := { st0 with cache := rd.2 }
  match cacheHit rd.1 with
  | some v => (.ok v, st1)
  | none =>
    match makeRequest up "coins/list" (listPayload currency limit offset) st1 with
    | (.ok result, st2) =>
      (.ok result, { st2 with cache := st2.cache.set now cacheKey result })
    | (.error e, st2) => (.error e, st2)

/-- Whether one listing entry matches the search:
`query_lower in coin.get("name", "").lower() or query_lower in
coin.get("code", "").lower()`. -/
def coinMatches (queryLower : String) (coin : JVal) : Bool :=
  strContains (lowerStr (coin.getStrD "name" "")) queryLower ||
    strContains (lowerStr (coin.getStrD "code" "")) queryLower

/-- The filtering loop of `search_coins`: walk the listing in order, append
each matching coin, and break as soon as the collected matches reach `limit`
(the break is only checked after a match is appended). -/
def searchLoop (queryLower : String) (limit : Nat) (acc : List JVal) :
    List JVal → List JVal
  | [] => acc
  | coin :: rest =>
    if coinMatches queryLower coin then
      let acc2 := acc ++ [coin]
      if limit ≤ acc2.length then acc2
      else searchLoop queryLower limit acc2 rest
    else searchLoop queryLower limit acc rest

/-- `search_coins`: consult the cache under `search_{query}_{currency}_{limit}`;
on a (truthy) hit return the cached matches; otherwise fetch a listing with
the fixed window of 200 entries, filter it client-side with the short-circuit
loop, cache and return the matches (as a JSON array). -/
def search_coins (up : Oracle) (now : ℤ) (query currency : String)
    (limit : Nat) (st : GwState) : Except LiveCoinWatchError JVal × GwState :=
  let cacheKey := searchCacheKey query currency limit
  let rd := st.cache.get now cacheKey
  let st1 : GwState := { st with cache := rd.2 }
  match cacheHit rd.1 with
  | some v => (.ok v, st1)
  | none =>
    match get_coins_list up now currency 200 0 st1 with
    | (.error e, st2) => (.error e, st2)
    | (.ok coinsData, st2) =>
      let matching := searchLoop (lowerStr query) limit [] coinsData.asArr
      (.ok (.arr matching),
        { st2 with cache := st2.cache.set now cacheKey (.arr matching) })

/-- `get_market_overview`: consult the cache under
`market_overview_{currency}`; on a (truthy) hit return the cached overview;
otherwise call upstream and cache a successful result. -/
def get_market_overview (up : Oracle) (now : ℤ) (currency : String)
    (st : GwState) : Except LiveCoinWatchError JVal × GwState :=
  let cacheKey := overviewCacheKey currency
  let rd := st.cache.get now cacheKey
  let st1 : GwState := { st with cache := rd.2 }
  match cacheHit rd.1 with
  | some v => (.ok v, st1)
  | none =>
    match makeRequest up "overview" (overviewPayload currency) st1 with
    | (.ok result, st2) =>
      (.ok result, { st2 with cache := st2.cache.set now cacheKey result })
    | (.error e, st2) => (.error e, st2)

/-! ### The routing layer (`app/main.py`) -/
/-- `livecoinwatch_exception_handler`: pick the HTTP status from the error's
message by lowercased substring sniffing — "not found" → 404,
"unauthorized" → 401, "rate limit" → 429, anything else → 502. -/
def lcwErrorStatusCode (msg : String) : Nat :=
  let m := lowerStr msg
  if strContains m "not found" then 404
  else if strContains m "unauthorized" then 401
  else if strContains m "rate limit" then 429
  else 502

/-- Error on a route: either a local validation rejection (mapped to 400) or
a propagated gateway error (mapped via `lcwErrorStatusCode`). -/
inductive RouteError where
  | validation : String → RouteError
  | lcw : LiveCoinWatchError → RouteError

/-- The public single-asset response shape (`CryptocurrencyResponse`). -/
structure CryptocurrencyResponse where
  symbol : String
  name : String
  price : ℚ
  percent_change_24h : ℚ
  volume_24h : ℚ
  market_cap : Option ℚ
  rank : Option ℚ

/-- The public list-item shape (`CryptocurrencyListItem`). -/
structure CryptocurrencyListItem where
  symbol : String
  name : String
  price : ℚ
  percent_change_24h : ℚ
  rank : Option ℚ

/-- The public list/search response shape (`CryptocurrencyListResponse`). -/
structure CryptocurrencyListResponse where
  data : List CryptocurrencyListItem
  total_count : Nat
  currency : String

/-- The public market-overview shape (`MarketOverview`). -/
structure MarketOverview where
  total_market_cap : ℚ
  total_volume_24h : ℚ
  bitcoin_dominance : Option ℚ
  active_cryptocurrencies : Option ℚ

/-- `data.get("delta", {}).get("day", 1.0)`, assuming `delta`, when present,
is an object and `day`, when present, a number. -/
def deltaDay (data : JVal) : ℚ :=
  (data.getD "delta" (.obj [])).getNumD "day" 1

/-- The response-building block of `get_cryptocurrency`: note the symbol
comes from `data.get("symbol", validated_symbol)` — the upstream field when
present, the validated symbol only as a fallback. -/
def buildSingleResponse (validated_symbol : String) (data : JVal) :
    CryptocurrencyResponse :=
  { symbol := match data.getField "symbol" with
      | some (.str s) => s
      | _ => validated_symbol
  , name := data.getStrD "name" ""
  , price := data.getNumD "rate" 0
  , percent_change_24h := (deltaDay data - 1) * 100
  , volume_24h := data.getNumD "volume" 0
  , market_cap := data.getNumOpt "cap"
  , rank := data.getNumOpt "rank" }

/-- The per-item transform shared verbatim by the list and search routes. -/
def buildListItem (item : JVal) : CryptocurrencyListItem :=
  { symbol := item.getStrD "code" ""
  , name := item.getStrD "name" ""
  , price := item.getNumD "rate" 0
  , percent_change_24h := (deltaDay item - 1) * 100
  , rank := item.getNumOpt "rank" }

/-- Route `GET /crypto/{symbol}` (`get_cryptocurrency`): validate the symbol
and currency, call the gateway, and build the single-asset response. -/
def get_cryptocurrency (up : Oracle) (now : ℤ) (symbol currency : String)
    (st : GwState) : Except RouteError CryptocurrencyResponse × GwState :=
  match validate_crypto_symbol symbol with
  | .error e => (.error (.validation e), st)
  | .ok validated_symbol =>
    match validate_currency currency with
    | .error e => (.error (.validation e), st)
    | .ok validated_currency =>
      match get_single_coin up now validated_symbol validated_currency st with
      | (.error e, st1) => (.error (.lcw e), st1)
      | (.ok data, st1) => (.ok (buildSingleResponse validated_symbol data), st1)

/-- Route `GET /crypto` (`get_cryptocurrencies`): validate, fetch the listing,
map each element through the item transform, and report `total_count` as the
number of transformed items. -/
def get_cryptocurrencies (up : Oracle) (now : ℤ) (limit offset : Nat)
    (currency : String) (st : GwState) :
    Except RouteError CryptocurrencyListResponse × GwState :=
  match validate_limit limit 100 with
  | .error e => (.error (.validation e), st)
  | .ok validated_limit =>
    match validate_currency currency with
    | .error e => (.error (.validation e), st)
    | .ok validated_currency =>
      match get_coins_list up now validated_currency validated_limit offset st with
      | (.error e, st1) => (.error (.lcw e), st1)
      | (.ok data, st1) =>
        let crypto_items := data.asArr.map buildListItem
        (.ok { data := crypto_items
             , total_count := crypto_items.length
             , currency := validated_currency }, st1)

/-- Route `GET /search` (`search_cryptocurrencies`): validate (limit capped at
50), search via the gateway, map each match through the item transform, and
report `total_count` as the number of transformed items. -/
def search_cryptocurrencies (up : Oracle) (now : ℤ) (query : String)
    (limit : Nat) (currency : String) (st : GwState) :
    Except RouteError CryptocurrencyListResponse × GwState :=
  match validate_limit limit 50 with
  | .error e => (.error (.validation e), st)
  | .ok validated_limit =>
    match validate_currency currency with
    | .error e => (.error (.validation e), st)
    | .ok validated_currency =>
      match search_coins up now query validated_currency validated_limit st with
      | (.error e, st1) => (.error (.lcw e), st1)
      | (.ok data, st1) =>
        let crypto_items := data.asArr.map buildListItem
        (.ok { data := crypto_items
             , total_count := crypto_items.length
             , currency := validated_currency }, st1)

/-- Route `GET /market/overview` (`get_market_overview` route handler):
validate the currency, fetch the overview, and remap the fields. -/
def get_market_overview_route (up : Oracle) (now : ℤ) (currency : String)
    (st : GwState) : Except RouteError MarketOverview × GwState :=
  match validate_currency currency with
  | .error e => (.error (.validation e), st)
  | .ok validated_currency =>
    match get_market_overview up now validated_currency st with
    | (.error e, st1) => (.error (.lcw e), st1)
    | (.ok data, st1) =>
      (.ok { total_market_cap := data.getNumD "cap" 0
           , total_volume_24h := data.getNumD "volume" 0
           , bitcoin_dominance := data.getNumOpt "btcDominance"
           , active_cryptocurrencies := data.getNumOpt "liquidity" }, st1)

/-- A concrete cache used to instantiate the cache theorems: TTL 300, one
entry at key "a" with value 5 inserted at time 100. -/
def wCache : SimpleCache Nat :=
  { ttl := 300, entries := fun k => if k = "a" then some (5, 100) else none }

/-- The end-to-end scenario payload from the spec: BTC at rate 45000.5 with
`delta.day = 0.975`. -/
def btcPayload : JVal :=
  .obj [("code", .str "BTC"), ("name", .str "Bitcoin"), ("rate", .num 45000.5),
        ("volume", .num 25000000000), ("cap", .num 850000000000),
        ("rank", .num 1), ("delta", .obj [("day", .num 0.975)])]

/-- The empty initial gateway state: empty cache with the default TTL of 300
time units, no calls made yet. -/
def emptyGw : GwState :=
  { cache := { ttl := 300, entries := fun _ => none }
  , upstreamCalls := 0, listingFetches := 0 }

/-- Oracle answering every request with HTTP 429 and an empty body. -/
def up429 : Oracle := fun _ _ => .http 429 (.obj [])

/-- Oracle answering every request with HTTP 401 and an empty body. -/
def up401 : Oracle := fun _ _ => .http 401 (.obj [])

/-- Oracle answering every request with HTTP 500 and an empty body. -/
def up500 : Oracle := fun _ _ => .http 500 (.obj [])

/-- A two-coin listing oracle used to instantiate list/search theorems. -/
def coinETH : JVal :=
  .obj [("code", .str "ETH"), ("name", .str "Ethereum"), ("rate", .num 3200.75),
        ("rank", .num 2), ("delta", .obj [("day", .num 1.018)])]

/-- Oracle answering every request with the two-coin listing `[BTC, ETH]`. -/
def listOracle : Oracle := fun _ _ => .ok (.arr [btcPayload, coinETH])

/-- The list response produced by `get_cryptocurrencies` over `listOracle`. -/
def wListResp : CryptocurrencyListResponse :=
  { data := [buildListItem btcPayload, buildListItem coinETH]
  , total_count := 2, currency := "USD" }

/-- The search response produced by `search_cryptocurrencies` for "bit" over
`listOracle` (only Bitcoin's name contains "bit"). -/
def wSearchResp : CryptocurrencyListResponse :=
  { data := [buildListItem btcPayload], total_count := 1, currency := "USD" }

/-- A minimal listing entry with the given code and name. -/
def mkCoin (code name : String) : JVal :=
  .obj [("code", .str code), ("name", .str name)]

/-- A six-entry listing in which positions 1, 3 and 5 match the query "btc". -/
def wListing : List JVal :=
  [mkCoin "AAA" "Alpha", mkCoin "XBT" "WrappedBTC", mkCoin "BBB" "Beta",
   mkCoin "BTCY" "Gamma", mkCoin "CCC" "Ceta", mkCoin "ZBTC" "Zeta"]

/-- Oracle answering every request with `wListing`. -/
def searchOracle : Oracle := fun _ _ => .ok (.arr wListing)

/-- The upstream payload of the counterexample: it carries a `symbol` field
holding the unicode glyph (as the real provider does) next to `code`. -/
def glyphPayload : JVal :=
  .obj [("symbol", .str "₿"), ("code", .str "BTC"), ("name", .str "Bitcoin"),
        ("rate", .num 45000.5), ("delta", .obj [("day", .num 0.975)])]

/-- Oracle answering every request with `glyphPayload`. -/
def glyphOracle : Oracle := fun _ _ => .ok glyphPayload

/-- Oracle answering every request with `btcPayload` (which, like the
spec's end-to-end scenario payload, has no `symbol` field). -/
def btcOracle : Oracle := fun _ _ => .ok btcPayload

/-- A gateway state whose cache holds two fresh but falsy entries: an empty
object for the BTC/USD coin key, an empty array for the "zzz" search key. -/
def falsyGw : GwState :=
  { cache :=
    { ttl := 300
    , entries := fun k =>
        if k = coinCacheKey "BTC" "USD" then some (.obj [], 100)
        else if k = searchCacheKey "zzz" "USD" 10 then some (.arr [], 100)
        else none }
  , upstreamCalls := 5, listingFetches := 2 }

/-! ## Error paths and the cache (C6) -/
/-- How a cache may relate to itself after read-only consultations at time
`now`: every entry is either untouched or was deleted because it had already
expired; nothing is written. -/
def ReadEvol {α : Type} (c c' : SimpleCache α) (now : ℤ) : Prop :=
  c'.ttl = c.ttl ∧
  ∀ k, c'.entries k = c.entries k ∨
    (c'.entries k = none ∧ ∃ v t, c.entries k = some (v, t) ∧ c.ttl < now - t)

/-- What the claim's "cache left unchanged" means observationally: no entry
was written (each key's entry is preserved or gone), and every subsequent
read, at any key and any later time, sees exactly what it would have seen
against the original cache. -/
def CacheUnchangedObs {α : Type} (c c' : SimpleCache α) (now : ℤ) : Prop :=
  (∀ k, c'.entries k = c.entries k ∨ c'.entries k = none) ∧
  ∀ k now', now ≤ now' → (c'.get now' k).1 = (c.get now' k).1

/-- Oracle whose listing endpoint returns 200 with an empty array. -/
def upEmptyList : Oracle := fun _ _ => .ok (.arr [])

/-! ## Theorems -/

/-! ## Theorems about the cache -/
/-- Claim C1: for every key `k`, `SimpleCache.get k` returns the stored value
with no state change when an entry is present and `now - inserted_at ≤ ttl`;
when an entry is present but expired it deletes exactly that entry (all other
keys and the TTL untouched) and reports absent; and on a true miss it reports
absent and leaves the cache unchanged. -/
theorem cache_get_contract {α : Type} (c : SimpleCache α) (now : ℤ) (k : String) :
    (∀ v t, c.entries k = some (v, t) → now - t ≤ c.ttl →
      c.get now k = (some v, c)) ∧
    (∀ v t, c.entries k = some (v, t) → c.ttl < now - t →
      (c.get now k).1 = none ∧ ((c.get now k).2).entries k = none ∧
      ((c.get now k).2).ttl = c.ttl ∧
      ∀ k', k' ≠ k → ((c.get now k).2).entries k' = c.entries k') ∧
    (c.entries k = none → c.get now k = (none, c)) := by
  refine ⟨?_, ?_, ?_⟩
  · intro v t h hle
    simp [SimpleCache.get, h, not_lt.mpr hle]
  · intro v t h hgt
    refine ⟨?_, ?_, ?_, ?_⟩
    · simp [SimpleCache.get, h, hgt]
    · simp [SimpleCache.get, h, hgt]
    · simp [SimpleCache.get, h, hgt]
    · intro k' hk'
      simp [SimpleCache.get, h, hgt, hk']
  · intro h
    simp [SimpleCache.get, h]

/-- Witness for C1: on `wCache`, a fresh read at time 200 returns 5 unchanged,
an expired read at time 500 deletes the entry, and a read of the absent key
"b" misses with no state change. -/
theorem cache_get_contract_witness :
    wCache.get 200 "a" = (some 5, wCache) ∧
    ((wCache.get 500 "a").1 = none ∧ ((wCache.get 500 "a").2).entries "a" = none) ∧
    wCache.get 200 "b" = (none, wCache) := by
  refine ⟨(cache_get_contract wCache 200 "a").1 5 100 rfl (by decide), ?_, ?_⟩
  · have h := (cache_get_contract wCache 500 "a").2.1 5 100 rfl (by decide)
    exact ⟨h.1, h.2.1⟩
  · exact (cache_get_contract wCache 200 "b").2.2 rfl

/-- Claim C7: `SimpleCache.set k v` stores `v` under `k` with the current
timestamp, overwriting any prior entry and leaving every other key and the
TTL untouched; the overwritten entry's expiry clock restarts at the new
insertion time: a read within `ttl` of the `set` returns `v`, a read after
`ttl` reports absent. -/
theorem cache_set_contract {α : Type} (c : SimpleCache α) (now : ℤ) (k : String)
    (v : α) :
    ((c.set now k v).entries k = some (v, now)) ∧
    ((c.set now k v).ttl = c.ttl) ∧
    (∀ k', k' ≠ k → (c.set now k v).entries k' = c.entries k') ∧
    (∀ now', now' - now ≤ c.ttl →
      (c.set now k v).get now' k = (some v, c.set now k v)) ∧
    (∀ now', c.ttl < now' - now → ((c.set now k v).get now' k).1 = none) := by
  refine ⟨?_, ?_, ?_, ?_, ?_⟩
  · simp [SimpleCache.set]
  · simp [SimpleCache.set]
  · intro k' hk'
    simp [SimpleCache.set, hk']
  · intro now' hle
    simp [SimpleCache.set, SimpleCache.get, not_lt.mpr hle]
  · intro now' hgt
    simp [SimpleCache.set, SimpleCache.get, hgt]

/-- Witness for C7: overwriting key "a" of `wCache` (whose prior entry dates
from time 100) at time 600 stores (7, 600); a read at 850 — long past the old
entry's expiry — still returns 7, and a read at 1000 finds it expired. -/
theorem cache_set_contract_witness :
    (wCache.set 600 "a" 7).entries "a" = some (7, 600) ∧
    (wCache.set 600 "a" 7).get 850 "a" = (some 7, wCache.set 600 "a" 7) ∧
    ((wCache.set 600 "a" 7).get 1000 "a").1 = none := by
  refine ⟨(cache_set_contract wCache 600 "a" 7).1, ?_, ?_⟩
  · exact (cache_set_contract wCache 600 "a" 7).2.2.2.1 850 (by decide)
  · exact (cache_set_contract wCache 600 "a" 7).2.2.2.2 1000 (by decide)

/-! ## Theorems about the routing layer's field mapping -/
/-- Claim C3: for every upstream payload whose `delta.day` field is `d`, the
single-asset response's `percent_change_24h` equals `(d - 1) * 100`. -/
theorem percent_change_derivation (vs : String) (data dj : JVal) (d : ℚ)
    (h1 : data.getField "delta" = some dj)
    (h2 : dj.getField "day" = some (.num d)) :
    (buildSingleResponse vs data).percent_change_24h = (d - 1) * 100 := by
  simp [buildSingleResponse, deltaDay, JVal.getD, JVal.getNumD, h1, h2]

/-- Witness for C3: on the BTC payload with `delta.day = 0.975` the derived
percent change is exactly -2.5. -/
theorem percent_change_derivation_witness :
    (buildSingleResponse "BTC" btcPayload).percent_change_24h = -2.5 := by
  rw [percent_change_derivation "BTC" btcPayload (.obj [("day", .num 0.975)])
    0.975 rfl rfl]
  norm_num

/-- Claim C5: an upstream 429 surfaces as the rate-limited domain error and
the routing layer's handler maps its message to HTTP 429; an upstream 401
maps to HTTP 401; a generic upstream 500 (one carrying no structured error
description) maps to HTTP 502. -/
theorem error_status_mapping (up : Oracle) (endpoint : String) (data : JVal)
    (st : GwState) :
    (∀ body, up endpoint data = .http 429 body →
      (makeRequest up endpoint data st).1 = .error ⟨"Rate limit exceeded"⟩) ∧
    lcwErrorStatusCode "Rate limit exceeded" = 429 ∧
    (∀ body, up endpoint data = .http 401 body →
      (makeRequest up endpoint data st).1 =
        .error ⟨"Invalid API key or unauthorized access"⟩) ∧
    lcwErrorStatusCode "Invalid API key or unauthorized access" = 401 ∧
    (∀ body, up endpoint data = .http 500 body → body.getField "error" = none →
      (makeRequest up endpoint data st).1 =
        .error ⟨"API error (500): Unknown error"⟩) ∧
    lcwErrorStatusCode "API error (500): Unknown error" = 502 := by
  refine ⟨?_, by decide, ?_, by decide, ?_, by decide⟩
  · intro body h
    simp [makeRequest, h]
  · intro body h
    simp [makeRequest, h]
  · intro body h hb
    simp [makeRequest, h, errDescription, JVal.getD, JVal.getStrD, hb]
    decide

/-- Witness for C5: concrete 429/401/500 upstream outcomes produce the three
expected domain errors (whose messages the handler maps to 429, 401, 502). -/
theorem error_status_mapping_witness :
    (makeRequest up429 "coins/single" (.obj []) emptyGw).1 =
      .error ⟨"Rate limit exceeded"⟩ ∧
    (makeRequest up401 "coins/single" (.obj []) emptyGw).1 =
      .error ⟨"Invalid API key or unauthorized access"⟩ ∧
    (makeRequest up500 "coins/single" (.obj []) emptyGw).1 =
      .error ⟨"API error (500): Unknown error"⟩ := by
  refine ⟨(error_status_mapping up429 "coins/single" (.obj []) emptyGw).1
      (.obj []) rfl,
    (error_status_mapping up401 "coins/single" (.obj []) emptyGw).2.2.1
      (.obj []) rfl,
    (error_status_mapping up500 "coins/single" (.obj []) emptyGw).2.2.2.2.1
      (.obj []) rfl rfl⟩

/-- Claim C10: in every list response and every search response, `total_count`
equals the number of elements actually returned in `data`. -/
theorem total_count_is_returned_length :
    (∀ up now limit offset currency st resp st1,
      get_cryptocurrencies up now limit offset currency st = (.ok resp, st1) →
      resp.total_count = resp.data.length) ∧
    (∀ up now query limit currency st resp st1,
      search_cryptocurrencies up now query limit currency st = (.ok resp, st1) →
      resp.total_count = resp.data.length) := by
  constructor
  · intro up now limit offset currency st resp st1 h
    unfold get_cryptocurrencies at h
    split at h
    · exact absurd h (by simp)
    split at h
    · exact absurd h (by simp)
    split at h
    · exact absurd h (by simp)
    simp only [Prod.mk.injEq, Except.ok.injEq] at h
    obtain ⟨h1, -⟩ := h
    subst h1
    simp
  · intro up now query limit currency st resp st1 h
    unfold search_cryptocurrencies at h
    split at h
    · exact absurd h (by simp)
    split at h
    · exact absurd h (by simp)
    split at h
    · exact absurd h (by simp)
    simp only [Prod.mk.injEq, Except.ok.injEq] at h
    obtain ⟨h1, -⟩ := h
    subst h1
    simp

/-- Witness for C10: concrete list and search calls return responses whose
`total_count` equals the length of their `data`. -/
theorem total_count_is_returned_length_witness :
    wListResp.total_count = wListResp.data.length ∧
    wSearchResp.total_count = wSearchResp.data.length := by
  constructor
  · exact total_count_is_returned_length.1 listOracle 0 20 0 "USD" emptyGw
      wListResp (get_cryptocurrencies listOracle 0 20 0 "USD" emptyGw).2 rfl
  · exact total_count_is_returned_length.2 listOracle 0 "bit" 10 "USD" emptyGw
      wSearchResp (search_cryptocurrencies listOracle 0 "bit" 10 "USD" emptyGw).2 rfl

/-! ## Theorems about search -/
/-- The short-circuit loop equals filter-then-take, for any accumulator still
below the limit. -/
theorem searchLoop_eq_take (ql : String) (limit : Nat) (l : List JVal) :
    ∀ acc, acc.length < limit →
      searchLoop ql limit acc l =
        acc ++ (l.filter (coinMatches ql)).take (limit - acc.length) := by
  induction l with
  | nil => intro acc h; simp [searchLoop]
  | cons c rest ih =>
    intro acc h
    by_cases hm : coinMatches ql c
    · rw [searchLoop, if_pos hm]
      by_cases hl : limit ≤ (acc ++ [c]).length
      · have hlim : limit = acc.length + 1 := by
          simp only [List.length_append, List.length_singleton] at hl
          omega
        rw [if_pos hl]
        simp [List.filter_cons, hm, hlim]
      · rw [if_neg hl]
        have h2 : (acc ++ [c]).length < limit := by
          simp only [List.length_append, List.length_singleton] at hl ⊢
          omega
        rw [ih _ h2]
        have hstep : limit - acc.length = (limit - (acc ++ [c]).length) + 1 := by
          simp only [List.length_append, List.length_singleton] at h2 ⊢
          omega
        simp [List.filter_cons, hm, hstep, List.take_succ_cons]
    · rw [searchLoop, if_neg hm]
      rw [ih _ h]
      simp [List.filter_cons, hm]

/-- Claim C4: starting from an empty cache, search fetches the listing with
the fixed window of 200 entries (the oracle is consulted exactly at
`limit = 200, offset = 0`) and returns, in listing order, the entries whose
lowercased name or code contains the lowercased query, truncated to the
first `limit` matches. -/
theorem search_window_and_short_circuit (up : Oracle) (now : ℤ)
    (query currency : String) (limit : Nat) (st : GwState) (listing : List JVal)
    (hcache : ∀ k, st.cache.entries k = none)
    (hup : up "coins/list" (listPayload currency 200 0) = .ok (.arr listing))
    (hlim : 1 ≤ limit) :
    (search_coins up now query currency limit st).1 =
      .ok (.arr ((listing.filter (coinMatches (lowerStr query))).take limit)) := by
  have h1 : st.cache.entries (searchCacheKey query currency limit) = none :=
    hcache _
  have h2 : st.cache.entries (listCacheKey currency 200 0) = none := hcache _
  simp only [search_coins, get_coins_list, makeRequest, SimpleCache.get, h1, h2,
    hup, cacheHit, JVal.asArr]
  rw [searchLoop_eq_take (lowerStr query) limit listing []
    (by simpa using hlim)]
  simp

/-- Witness for C4: searching "btc" with `limit = 2` over a listing matching
at positions 1, 3 and 5 returns exactly the matches at positions 1 and 3 in
listing order — the later match at position 5 is never returned. -/
theorem search_window_and_short_circuit_witness :
    (search_coins searchOracle 0 "btc" "USD" 2 emptyGw).1 =
      .ok (.arr [mkCoin "XBT" "WrappedBTC", mkCoin "BTCY" "Gamma"]) := by
  rw [search_window_and_short_circuit searchOracle 0 "btc" "USD" 2 emptyGw
    wListing (fun _ => rfl) rfl (by decide)]
  rfl

/-! ## Theorems about symbol normalization (single-asset lookup) -/
/-- A successful `validate_crypto_symbol` returns exactly the stripped,
uppercased input. -/
theorem validate_symbol_ok_eq (symbol vs : String)
    (h : validate_crypto_symbol symbol = .ok vs) :
    vs = upperStr (trimStr symbol) := by
  simp only [validate_crypto_symbol] at h
  split at h
  · exact absurd h (by simp)
  split at h
  · exact absurd h (by simp)
  split at h
  · exact absurd h (by simp)
  simpa using h.symm

/-- Claim C8, amended: when the upstream payload carries no `symbol` field,
a successful single-asset lookup's response has `symbol` equal to the
normalized (stripped, uppercased) request symbol. (When the payload does
carry a `symbol` field, that field is returned verbatim instead — see the
counterexample.) -/
theorem response_symbol_normalized (up : Oracle) (now : ℤ)
    (symbol currency vs vc : String) (st st1 st2 : GwState) (data : JVal)
    (resp : CryptocurrencyResponse)
    (hs : validate_crypto_symbol symbol = .ok vs)
    (hc : validate_currency currency = .ok vc)
    (hgw : get_single_coin up now vs vc st = (.ok data, st1))
    (hno : data.getField "symbol" = none)
    (hroute : get_cryptocurrency up now symbol currency st = (.ok resp, st2)) :
    resp.symbol = upperStr (trimStr symbol) := by
  unfold get_cryptocurrency at hroute
  simp only [hs, hc, hgw] at hroute
  simp only [Prod.mk.injEq, Except.ok.injEq] at hroute
  obtain ⟨h1, -⟩ := hroute
  subst h1
  simp [buildSingleResponse, hno, validate_symbol_ok_eq symbol vs hs]

/-- Counterexample to C8 as stated: for the valid symbol " btc " (normalized
"BTC") and currency "USD", the lookup succeeds but the response's symbol is
the upstream payload's `symbol` field "₿", not the normalized "BTC" — the
route uses `data.get("symbol", validated_symbol)`, preferring the upstream
field over the normalized request symbol. -/
theorem response_symbol_counterexample :
    (get_cryptocurrency glyphOracle 0 " btc " "USD" emptyGw).1 =
      .ok (buildSingleResponse "BTC" glyphPayload) ∧
    (buildSingleResponse "BTC" glyphPayload).symbol = "₿" ∧
    upperStr (trimStr " btc ") = "BTC" ∧
    ("₿" : String) ≠ "BTC" := by
  refine ⟨rfl, rfl, rfl, by decide⟩

/-- Witness for the amended C8: looking up " btc " against a payload without
a `symbol` field yields response symbol "BTC" = normalize(" btc "). -/
theorem response_symbol_normalized_witness :
    (buildSingleResponse "BTC" btcPayload).symbol = upperStr (trimStr " btc ") := by
  exact response_symbol_normalized btcOracle 0 " btc " "USD" "BTC" "USD" emptyGw
    (get_single_coin btcOracle 0 "BTC" "USD" emptyGw).2
    (get_cryptocurrency btcOracle 0 " btc " "USD" emptyGw).2
    btcPayload (buildSingleResponse "BTC" btcPayload)
    rfl rfl rfl rfl rfl

/-! ## Theorems about cache consultation and upstream call counts -/
/-- `_make_request` leaves the cache and the listing counter alone and bumps
the upstream-call counter by one, whatever the HTTP outcome. -/
theorem makeRequest_snd (up : Oracle) (ep : String) (d : JVal) (st : GwState) :
    (makeRequest up ep d st).2 =
      { st with upstreamCalls := st.upstreamCalls + 1 } := by
  unfold makeRequest
  cases up ep d with
  | ok body => rfl
  | http status body =>
    dsimp only
    split
    · rfl
    split
    · rfl
    split
    · rfl
    rfl
  | timeout => rfl
  | netError c => rfl

/-- Every invocation of the listing operation bumps `listingFetches` by
exactly one, whether it hits the cache, fetches, or fails. -/
theorem get_coins_list_listingFetches (up : Oracle) (now : ℤ)
    (currency : String) (limit offset : Nat) (st : GwState) :
    (get_coins_list up now currency limit offset st).2.listingFetches =
      st.listingFetches + 1 := by
  unfold get_coins_list
  dsimp only
  split
  · rfl
  rename_i hmiss
  split
  · rename_i result st2 heq
    have h := congrArg (fun p => p.2.listingFetches) heq
    dsimp only at h
    rw [makeRequest_snd] at h
    simpa using h.symm
  · rename_i e st2 heq
    have h := congrArg (fun p => p.2.listingFetches) heq
    dsimp only at h
    rw [makeRequest_snd] at h
    simpa using h.symm

/-- Claim C9: a cached value that is Python-falsy is treated as a cache miss.
A falsy cached single-coin payload (e.g. an empty object) makes the lookup
call upstream again despite the fresh cache entry; a cached empty search
result list never counts as a hit, so an identical search within the TTL
invokes the listing operation (`get_coins_list`) again. -/
theorem falsy_cached_value_is_miss :
    (∀ (up : Oracle) (now : ℤ) (symbol currency : String) (st : GwState)
        (v : JVal) (t : ℤ),
      st.cache.entries (coinCacheKey symbol currency) = some (v, t) →
      v.truthy = false → now - t ≤ st.cache.ttl →
      (get_single_coin up now symbol currency st).2.upstreamCalls =
        st.upstreamCalls + 1) ∧
    (∀ (up : Oracle) (now : ℤ) (query currency : String) (limit : Nat)
        (st : GwState) (t : ℤ),
      st.cache.entries (searchCacheKey query currency limit) =
        some (.arr [], t) →
      now - t ≤ st.cache.ttl →
      (search_coins up now query currency limit st).2.listingFetches =
        st.listingFetches + 1) := by
  constructor
  · intro up now symbol currency st v t he hf hle
    have hget : st.cache.get now (coinCacheKey symbol currency) =
        (some v, st.cache) := by
      simp [SimpleCache.get, he, not_lt.mpr hle]
    unfold get_single_coin
    simp only [hget, cacheHit, hf, Bool.false_eq_true, if_false]
    split
    · rename_i result st2 heq
      have h := congrArg (fun p => p.2.upstreamCalls) heq
      dsimp only at h
      rw [makeRequest_snd] at h
      simpa using h.symm
    · rename_i e st2 heq
      have h := congrArg (fun p => p.2.upstreamCalls) heq
      dsimp only at h
      rw [makeRequest_snd] at h
      split <;> simpa using h.symm
  · intro up now query currency limit st t he hle
    have hget : st.cache.get now (searchCacheKey query currency limit) =
        (some (.arr []), st.cache) := by
      simp [SimpleCache.get, he, not_lt.mpr hle]
    have hch : cacheHit (some (JVal.arr [])) = none := rfl
    unfold search_coins
    simp only [hget]
    rw [hch]
    dsimp only
    split
    · rename_i e st2 heq
      have h := congrArg (fun p => p.2.listingFetches) heq
      dsimp only at h
      rw [get_coins_list_listingFetches] at h
      simpa using h.symm
    · rename_i coinsData st2 heq
      have h := congrArg (fun p => p.2.listingFetches) heq
      dsimp only at h
      rw [get_coins_list_listingFetches] at h
      simpa using h.symm

/-- Witness for C9: at time 200 (well within the TTL of the entries inserted
at 100), the single-coin lookup still makes an upstream call and the search
still invokes the listing operation. -/
theorem falsy_cached_value_is_miss_witness :
    (get_single_coin up429 200 "BTC" "USD" falsyGw).2.upstreamCalls = 6 ∧
    (search_coins up429 200 "zzz" "USD" 10 falsyGw).2.listingFetches = 3 := by
  constructor
  · exact falsy_cached_value_is_miss.1 up429 200 "BTC" "USD" falsyGw
      (.obj []) 100 rfl rfl (by decide)
  · exact falsy_cached_value_is_miss.2 up429 200 "zzz" "USD" 10 falsyGw
      100 rfl (by decide)

/-- `ReadEvol` is reflexive. -/
theorem readEvol_refl {α : Type} (c : SimpleCache α) (now : ℤ) :
    ReadEvol c c now :=
  ⟨rfl, fun _ => .inl rfl⟩

/-- A single `get` produces a `ReadEvol` step. -/
theorem readEvol_get {α : Type} (c : SimpleCache α) (now : ℤ) (key : String) :
    ReadEvol c (c.get now key).2 now := by
  unfold SimpleCache.get
  cases he : c.entries key with
  | none => exact readEvol_refl c now
  | some e =>
    by_cases hx : now - e.2 > c.ttl
    · simp only [hx, if_true, if_pos hx]
      refine ⟨rfl, fun k => ?_⟩
      by_cases hk : k = key
      · subst hk
        exact .inr ⟨by simp, e.1, e.2, he, hx⟩
      · exact .inl (by simp [hk])
    · simp only [if_neg hx]
      exact readEvol_refl c now

/-- `ReadEvol` steps at the same instant compose. -/
theorem readEvol_trans {α : Type} {c c' c'' : SimpleCache α} {now : ℤ}
    (h1 : ReadEvol c c' now) (h2 : ReadEvol c' c'' now) :
    ReadEvol c c'' now := by
  obtain ⟨ht1, he1⟩ := h1
  obtain ⟨ht2, he2⟩ := h2
  refine ⟨ht2.trans ht1, fun k => ?_⟩
  rcases he2 k with h | ⟨hn, v, t, hs, hexp⟩
  · rw [h]
    exact he1 k
  · rcases he1 k with h' | ⟨hn', -⟩
    · exact .inr ⟨hn, v, t, h' ▸ hs, by rw [← ht1]; exact hexp⟩
    · rw [hn'] at hs
      exact absurd hs (by simp)

/-- A `ReadEvol` step is observationally no change: nothing was written, and
any later read sees the same results. -/
theorem readEvol_cacheUnchangedObs {α : Type} {c c' : SimpleCache α} {now : ℤ}
    (h : ReadEvol c c' now) : CacheUnchangedObs c c' now := by
  obtain ⟨ht, he⟩ := h
  constructor
  · intro k
    rcases he k with h' | ⟨hn, -⟩
    · exact .inl h'
    · exact .inr hn
  · intro k now' hle
    rcases he k with h' | ⟨hn, v, t, hs, hexp⟩
    · unfold SimpleCache.get
      rw [h', ht]
      cases he2 : c.entries k with
      | none => simp
      | some e => by_cases hx : now' - e.2 > c.ttl <;> simp [hx]
    · unfold SimpleCache.get
      rw [hn, hs]
      have hx : c.ttl < now' - t := by omega
      simp [hx]

/-- On an error result, `get_single_coin` leaves exactly the cache produced by
its initial read (no entry is ever written on the error path). -/
theorem get_single_coin_error_cache (up : Oracle) (now : ℤ)
    (symbol currency : String) (st : GwState) (e : LiveCoinWatchError)
    (st1 : GwState)
    (h : get_single_coin up now symbol currency st = (.error e, st1)) :
    st1.cache = (st.cache.get now (coinCacheKey symbol currency)).2 := by
  unfold get_single_coin at h
  dsimp only at h
  split at h
  · exact absurd h (by simp)
  split at h
  · exact absurd h (by simp)
  rename_i e2 st2 heq
  have hc := congrArg (fun p => p.2.cache) heq
  dsimp only at hc
  rw [makeRequest_snd] at hc
  split at h <;>
    (simp only [Prod.mk.injEq] at h; obtain ⟨-, h2⟩ := h; subst h2;
      simpa using hc.symm)

/-- On an error result, `get_coins_list` leaves exactly the cache produced by
its initial read. -/
theorem get_coins_list_error_cache (up : Oracle) (now : ℤ) (currency : String)
    (limit offset : Nat) (st : GwState) (e : LiveCoinWatchError)
    (st1 : GwState)
    (h : get_coins_list up now currency limit offset st = (.error e, st1)) :
    st1.cache = (st.cache.get now (listCacheKey currency limit offset)).2 := by
  unfold get_coins_list at h
  dsimp only at h
  split at h
  · exact absurd h (by simp)
  split at h
  · exact absurd h (by simp)
  rename_i e2 st2 heq
  have hc := congrArg (fun p => p.2.cache) heq
  dsimp only at hc
  rw [makeRequest_snd] at hc
  simp only [Prod.mk.injEq] at h
  obtain ⟨-, h2⟩ := h
  subst h2
  simpa using hc.symm

/-- On an error result, `search_coins` leaves exactly the cache produced by
its own read followed by the listing operation's read. -/
theorem search_coins_error_cache (up : Oracle) (now : ℤ)
    (query currency : String) (limit : Nat) (st : GwState)
    (e : LiveCoinWatchError) (st1 : GwState)
    (h : search_coins up now query currency limit st = (.error e, st1)) :
    st1.cache =
      (((st.cache.get now (searchCacheKey query currency limit)).2).get now
        (listCacheKey currency 200 0)).2 := by
  unfold search_coins at h
  dsimp only at h
  split at h
  · exact absurd h (by simp)
  split at h
  case h_2.h_2 => exact absurd h (by simp)
  rename_i e2 st2 heq
  simp only [Prod.mk.injEq] at h
  obtain ⟨-, h2⟩ := h
  subst h2
  have := get_coins_list_error_cache up now currency 200 0 _ e2 st2 heq
  simpa using this

/-- On an error result, `get_market_overview` leaves exactly the cache
produced by its initial read. -/
theorem get_market_overview_error_cache (up : Oracle) (now : ℤ)
    (currency : String) (st : GwState) (e : LiveCoinWatchError)
    (st1 : GwState)
    (h : get_market_overview up now currency st = (.error e, st1)) :
    st1.cache = (st.cache.get now (overviewCacheKey currency)).2 := by
  unfold get_market_overview at h
  dsimp only at h
  split at h
  · exact absurd h (by simp)
  split at h
  · exact absurd h (by simp)
  rename_i e2 st2 heq
  have hc := congrArg (fun p => p.2.cache) heq
  dsimp only at hc
  rw [makeRequest_snd] at hc
  simp only [Prod.mk.injEq] at h
  obtain ⟨-, h2⟩ := h
  subst h2
  simpa using hc.symm

/-- Claim C6: when any Gateway operation fails with a domain error, no cache
entry is written — every key's entry is either untouched or (if it had already
expired and was lazily evicted during the read) gone — and every subsequent
read at any later time sees exactly the same results as against the original
cache. -/
theorem error_path_leaves_cache_unwritten :
    (∀ up now symbol currency st e st1,
      get_single_coin up now symbol currency st = (.error e, st1) →
      CacheUnchangedObs st.cache st1.cache now) ∧
    (∀ up now currency limit offset st e st1,
      get_coins_list up now currency limit offset st = (.error e, st1) →
      CacheUnchangedObs st.cache st1.cache now) ∧
    (∀ up now query currency limit st e st1,
      search_coins up now query currency limit st = (.error e, st1) →
      CacheUnchangedObs st.cache st1.cache now) ∧
    (∀ up now currency st e st1,
      get_market_overview up now currency st = (.error e, st1) →
      CacheUnchangedObs st.cache st1.cache now) := by
  refine ⟨?_, ?_, ?_, ?_⟩
  · intro up now symbol currency st e st1 h
    rw [get_single_coin_error_cache up now symbol currency st e st1 h]
    exact readEvol_cacheUnchangedObs (readEvol_get st.cache now _)
  · intro up now currency limit offset st e st1 h
    rw [get_coins_list_error_cache up now currency limit offset st e st1 h]
    exact readEvol_cacheUnchangedObs (readEvol_get st.cache now _)
  · intro up now query currency limit st e st1 h
    rw [search_coins_error_cache up now query currency limit st e st1 h]
    exact readEvol_cacheUnchangedObs
      (readEvol_trans (readEvol_get st.cache now _) (readEvol_get _ now _))
  · intro up now currency st e st1 h
    rw [get_market_overview_error_cache up now currency st e st1 h]
    exact readEvol_cacheUnchangedObs (readEvol_get st.cache now _)

/-- Witness for C6: a rate-limited single-coin lookup and a rate-limited
search against the empty-cache state leave the cache observationally
unchanged. -/
theorem error_path_leaves_cache_unwritten_witness :
    CacheUnchangedObs emptyGw.cache
      (get_single_coin up429 0 "BTC" "USD" emptyGw).2.cache 0 ∧
    CacheUnchangedObs emptyGw.cache
      (search_coins up429 0 "btc" "USD" 10 emptyGw).2.cache 0 := by
  constructor
  · exact error_path_leaves_cache_unwritten.1 up429 0 "BTC" "USD" emptyGw
      ⟨"Rate limit exceeded"⟩ (get_single_coin up429 0 "BTC" "USD" emptyGw).2 rfl
  · exact error_path_leaves_cache_unwritten.2.2.1 up429 0 "btc" "USD" 10 emptyGw
      ⟨"Rate limit exceeded"⟩ (search_coins up429 0 "btc" "USD" 10 emptyGw).2 rfl

/-! ## Cache idempotence (C2): computation lemmas per operation -/
/-- A 200 outcome makes `_make_request` return the body, bumping only the
upstream-call counter. -/
theorem makeRequest_ok (up : Oracle) (ep : String) (d body : JVal)
    (st : GwState) (hup : up ep d = .ok body) :
    makeRequest up ep d st =
      (.ok body, { st with upstreamCalls := st.upstreamCalls + 1 }) := by
  unfold makeRequest
  rw [hup]

/-- A read of an absent key misses and changes nothing. -/
theorem get_miss {α : Type} (c : SimpleCache α) (now : ℤ) (k : String)
    (h : c.entries k = none) : c.get now k = (none, c) := by
  simp [SimpleCache.get, h]

/-- A read of a fresh entry returns its value and changes nothing. -/
theorem get_fresh {α : Type} (c : SimpleCache α) (now t : ℤ) (k : String)
    (v : α) (h : c.entries k = some (v, t)) (hw : now - t ≤ c.ttl) :
    c.get now k = (some v, c) := by
  simp [SimpleCache.get, h, not_lt.mpr hw]

/-- `set` makes the key's entry hold the value with the `set` timestamp. -/
theorem set_entries_self {α : Type} (c : SimpleCache α) (now : ℤ) (k : String)
    (v : α) : (c.set now k v).entries k = some (v, now) := by
  simp [SimpleCache.set]

/-- A cache miss at the coin key plus a 200 upstream response makes
`get_single_coin` fetch, cache and return the body. -/
theorem get_single_coin_fetch (up : Oracle) (now : ℤ)
    (symbol currency : String) (st : GwState) (body : JVal)
    (hkey : st.cache.entries (coinCacheKey symbol currency) = none)
    (hup : up "coins/single" (singlePayload symbol currency) = .ok body) :
    get_single_coin up now symbol currency st =
      (.ok body,
        { cache := st.cache.set now (coinCacheKey symbol currency) body
        , upstreamCalls := st.upstreamCalls + 1
        , listingFetches := st.listingFetches }) := by
  unfold get_single_coin
  dsimp only
  rw [get_miss st.cache now _ hkey]
  dsimp only
  simp only [cacheHit]
  rw [makeRequest_ok up "coins/single" (singlePayload symbol currency) body _ hup]

/-- A fresh truthy cached value makes `get_single_coin` return it with no
state change at all. -/
theorem get_single_coin_hit (up : Oracle) (now : ℤ)
    (symbol currency : String) (st : GwState) (v : JVal) (t : ℤ)
    (hkey : st.cache.entries (coinCacheKey symbol currency) = some (v, t))
    (hfresh : now - t ≤ st.cache.ttl) (htr : v.truthy = true) :
    get_single_coin up now symbol currency st = (.ok v, st) := by
  unfold get_single_coin
  dsimp only
  rw [get_fresh st.cache now t _ v hkey hfresh]
  dsimp only
  simp [cacheHit, htr]

/-- A cache miss at the listing key plus a 200 upstream response makes
`get_coins_list` fetch, cache and return the body (bumping both counters). -/
theorem get_coins_list_fetch (up : Oracle) (now : ℤ) (currency : String)
    (limit offset : Nat) (st : GwState) (body : JVal)
    (hkey : st.cache.entries (listCacheKey currency limit offset) = none)
    (hup : up "coins/list" (listPayload currency limit offset) = .ok body) :
    get_coins_list up now currency limit offset st =
      (.ok body,
        { cache := st.cache.set now (listCacheKey currency limit offset) body
        , upstreamCalls := st.upstreamCalls + 1
        , listingFetches := st.listingFetches + 1 }) := by
  unfold get_coins_list
  dsimp only
  rw [get_miss st.cache now _ hkey]
  dsimp only
  simp only [cacheHit]
  rw [makeRequest_ok up "coins/list" (listPayload currency limit offset) body _ hup]

/-- A fresh truthy cached listing makes `get_coins_list` return it, touching
only the listing counter. -/
theorem get_coins_list_hit (up : Oracle) (now : ℤ) (currency : String)
    (limit offset : Nat) (st : GwState) (v : JVal) (t : ℤ)
    (hkey : st.cache.entries (listCacheKey currency limit offset) = some (v, t))
    (hfresh : now - t ≤ st.cache.ttl) (htr : v.truthy = true) :
    get_coins_list up now currency limit offset st =
      (.ok v, { st with listingFetches := st.listingFetches + 1 }) := by
  unfold get_coins_list
  dsimp only
  rw [get_fresh st.cache now t _ v hkey hfresh]
  dsimp only
  simp [cacheHit, htr]

/-- Misses at both the search key and the listing key plus a 200 listing
response make `search_coins` fetch the 200-entry window, filter it, cache
both the listing and the matches, and return the matches. -/
theorem search_coins_fetch (up : Oracle) (now : ℤ) (query currency : String)
    (limit : Nat) (st : GwState) (listing : List JVal)
    (hsk : st.cache.entries (searchCacheKey query currency limit) = none)
    (hlk : st.cache.entries (listCacheKey currency 200 0) = none)
    (hup : up "coins/list" (listPayload currency 200 0) = .ok (.arr listing)) :
    search_coins up now query currency limit st =
      (.ok (.arr (searchLoop (lowerStr query) limit [] listing)),
        { cache := (st.cache.set now (listCacheKey currency 200 0)
              (.arr listing)).set now (searchCacheKey query currency limit)
              (.arr (searchLoop (lowerStr query) limit [] listing))
        , upstreamCalls := st.upstreamCalls + 1
        , listingFetches := st.listingFetches + 1 }) := by
  unfold search_coins
  dsimp only
  rw [get_miss st.cache now _ hsk]
  dsimp only
  simp only [cacheHit]
  have heta : ({ cache := st.cache, upstreamCalls := st.upstreamCalls
               , listingFetches := st.listingFetches } : GwState) = st := rfl
  rw [heta, get_coins_list_fetch up now currency 200 0 st (.arr listing) hlk hup]
  rfl

/-- A fresh truthy cached search result makes `search_coins` return it with
no state change at all. -/
theorem search_coins_hit (up : Oracle) (now : ℤ) (query currency : String)
    (limit : Nat) (st : GwState) (v : JVal) (t : ℤ)
    (hkey : st.cache.entries (searchCacheKey query currency limit) = some (v, t))
    (hfresh : now - t ≤ st.cache.ttl) (htr : v.truthy = true) :
    search_coins up now query currency limit st = (.ok v, st) := by
  unfold search_coins
  dsimp only
  rw [get_fresh st.cache now t _ v hkey hfresh]
  dsimp only
  simp [cacheHit, htr]

/-- A cache miss at the overview key plus a 200 upstream response makes
`get_market_overview` fetch, cache and return the body. -/
theorem get_market_overview_fetch (up : Oracle) (now : ℤ) (currency : String)
    (st : GwState) (body : JVal)
    (hkey : st.cache.entries (overviewCacheKey currency) = none)
    (hup : up "overview" (overviewPayload currency) = .ok body) :
    get_market_overview up now currency st =
      (.ok body,
        { cache := st.cache.set now (overviewCacheKey currency) body
        , upstreamCalls := st.upstreamCalls + 1
        , listingFetches := st.listingFetches }) := by
  unfold get_market_overview
  dsimp only
  rw [get_miss st.cache now _ hkey]
  dsimp only
  simp only [cacheHit]
  rw [makeRequest_ok up "overview" (overviewPayload currency) body _ hup]

/-- A fresh truthy cached overview makes `get_market_overview` return it with
no state change at all. -/
theorem get_market_overview_hit (up : Oracle) (now : ℤ) (currency : String)
    (st : GwState) (v : JVal) (t : ℤ)
    (hkey : st.cache.entries (overviewCacheKey currency) = some (v, t))
    (hfresh : now - t ≤ st.cache.ttl) (htr : v.truthy = true) :
    get_market_overview up now currency st = (.ok v, st) := by
  unfold get_market_overview
  dsimp only
  rw [get_fresh st.cache now t _ v hkey hfresh]
  dsimp only
  simp [cacheHit, htr]

/-- Counterexample to C2 as stated: when the upstream listing is the empty
array, two calls of `get_coins_list` with identical parameters at the same
instant (trivially within the TTL window) issue two upstream calls, because
the empty listing, although cached by the first call, is Python-falsy and
never counts as a hit. -/
theorem repeated_call_two_upstream_calls :
    (get_coins_list upEmptyList 0 "USD" 20 0 emptyGw).1 = .ok (.arr []) ∧
    ((get_coins_list upEmptyList 0 "USD" 20 0
        (get_coins_list upEmptyList 0 "USD" 20 0 emptyGw).2).2).upstreamCalls = 2 ∧
    ((0 : ℤ) - 0 ≤ emptyGw.cache.ttl) := by
  refine ⟨rfl, rfl, by decide⟩

/-- Claim C2, amended: for every Gateway operation, if the first call with
given parameters starts from a cache without that key's entry, the upstream
answers 200, and the result is truthy (a non-empty object or array), then
the first call makes exactly one upstream call and a second identical call
within the TTL returns the cached value without invoking upstream again.
(A falsy result — e.g. an empty listing — is never served from cache; see
the counterexample.) -/
theorem repeat_within_ttl_single_upstream_call :
    (∀ (up : Oracle) (now now' : ℤ) (symbol currency : String) (st : GwState)
        (body : JVal),
      st.cache.entries (coinCacheKey symbol currency) = none →
      up "coins/single" (singlePayload symbol currency) = .ok body →
      body.truthy = true →
      now' - now ≤ st.cache.ttl →
      (get_single_coin up now symbol currency st).1 = .ok body ∧
      (get_single_coin up now symbol currency st).2.upstreamCalls =
        st.upstreamCalls + 1 ∧
      (get_single_coin up now' symbol currency
        (get_single_coin up now symbol currency st).2).1 = .ok body ∧
      (get_single_coin up now' symbol currency
          (get_single_coin up now symbol currency st).2).2.upstreamCalls =
        (get_single_coin up now symbol currency st).2.upstreamCalls) ∧
    (∀ (up : Oracle) (now now' : ℤ) (currency : String) (limit offset : Nat)
        (st : GwState) (body : JVal),
      st.cache.entries (listCacheKey currency limit offset) = none →
      up "coins/list" (listPayload currency limit offset) = .ok body →
      body.truthy = true →
      now' - now ≤ st.cache.ttl →
      (get_coins_list up now currency limit offset st).1 = .ok body ∧
      (get_coins_list up now currency limit offset st).2.upstreamCalls =
        st.upstreamCalls + 1 ∧
      (get_coins_list up now' currency limit offset
        (get_coins_list up now currency limit offset st).2).1 = .ok body ∧
      (get_coins_list up now' currency limit offset
          (get_coins_list up now currency limit offset st).2).2.upstreamCalls =
        (get_coins_list up now currency limit offset st).2.upstreamCalls) ∧
    (∀ (up : Oracle) (now now' : ℤ) (query currency : String) (limit : Nat)
        (st : GwState) (listing : List JVal),
      st.cache.entries (searchCacheKey query currency limit) = none →
      st.cache.entries (listCacheKey currency 200 0) = none →
      up "coins/list" (listPayload currency 200 0) = .ok (.arr listing) →
      (JVal.arr (searchLoop (lowerStr query) limit [] listing)).truthy = true →
      now' - now ≤ st.cache.ttl →
      (search_coins up now query currency limit st).1 =
        .ok (.arr (searchLoop (lowerStr query) limit [] listing)) ∧
      (search_coins up now query currency limit st).2.upstreamCalls =
        st.upstreamCalls + 1 ∧
      (search_coins up now' query currency limit
          (search_coins up now query currency limit st).2).1 =
        .ok (.arr (searchLoop (lowerStr query) limit [] listing)) ∧
      (search_coins up now' query currency limit
          (search_coins up now query currency limit st).2).2.upstreamCalls =
        (search_coins up now query currency limit st).2.upstreamCalls) ∧
    (∀ (up : Oracle) (now now' : ℤ) (currency : String) (st : GwState)
        (body : JVal),
      st.cache.entries (overviewCacheKey currency) = none →
      up "overview" (overviewPayload currency) = .ok body →
      body.truthy = true →
      now' - now ≤ st.cache.ttl →
      (get_market_overview up now currency st).1 = .ok body ∧
      (get_market_overview up now currency st).2.upstreamCalls =
        st.upstreamCalls + 1 ∧
      (get_market_overview up now' currency
        (get_market_overview up now currency st).2).1 = .ok body ∧
      (get_market_overview up now' currency
          (get_market_overview up now currency st).2).2.upstreamCalls =
        (get_market_overview up now currency st).2.upstreamCalls) := by
  refine ⟨?_, ?_, ?_, ?_⟩
  · intro up now now' symbol currency st body hkey hup htr hwin
    have hp1 := get_single_coin_fetch up now symbol currency st body hkey hup
    rw [hp1]
    dsimp only
    have hp2 := get_single_coin_hit up now' symbol currency
      { cache := st.cache.set now (coinCacheKey symbol currency) body
      , upstreamCalls := st.upstreamCalls + 1
      , listingFetches := st.listingFetches } body now
      (set_entries_self st.cache now _ body) hwin htr
    rw [hp2]
    exact ⟨rfl, rfl, rfl, rfl⟩
  · intro up now now' currency limit offset st body hkey hup htr hwin
    have hp1 := get_coins_list_fetch up now currency limit offset st body hkey hup
    rw [hp1]
    dsimp only
    have hp2 := get_coins_list_hit up now' currency limit offset
      { cache := st.cache.set now (listCacheKey currency limit offset) body
      , upstreamCalls := st.upstreamCalls + 1
      , listingFetches := st.listingFetches + 1 } body now
      (set_entries_self st.cache now _ body) hwin htr
    rw [hp2]
    exact ⟨rfl, rfl, rfl, rfl⟩
  · intro up now now' query currency limit st listing hsk hlk hup htr hwin
    have hp1 := search_coins_fetch up now query currency limit st listing
      hsk hlk hup
    rw [hp1]
    dsimp only
    have hp2 := search_coins_hit up now' query currency limit
      { cache := (st.cache.set now (listCacheKey currency 200 0)
            (.arr listing)).set now (searchCacheKey query currency limit)
            (.arr (searchLoop (lowerStr query) limit [] listing))
      , upstreamCalls := st.upstreamCalls + 1
      , listingFetches := st.listingFetches + 1 }
      (.arr (searchLoop (lowerStr query) limit [] listing)) now
      (set_entries_self _ now _ _) hwin htr
    rw [hp2]
    exact ⟨rfl, rfl, rfl, rfl⟩
  · intro up now now' currency st body hkey hup htr hwin
    have hp1 := get_market_overview_fetch up now currency st body hkey hup
    rw [hp1]
    dsimp only
    have hp2 := get_market_overview_hit up now' currency
      { cache := st.cache.set now (overviewCacheKey currency) body
      , upstreamCalls := st.upstreamCalls + 1
      , listingFetches := st.listingFetches } body now
      (set_entries_self st.cache now _ body) hwin htr
    rw [hp2]
    exact ⟨rfl, rfl, rfl, rfl⟩

/-- Witness for the amended C2: for each operation, a concrete second call
100 time units after the first (TTL 300) issues no further upstream call. -/
theorem repeat_within_ttl_single_upstream_call_witness :
    (get_single_coin btcOracle 100 "BTC" "USD"
        (get_single_coin btcOracle 0 "BTC" "USD" emptyGw).2).2.upstreamCalls =
      (get_single_coin btcOracle 0 "BTC" "USD" emptyGw).2.upstreamCalls ∧
    (get_coins_list listOracle 100 "USD" 20 0
        (get_coins_list listOracle 0 "USD" 20 0 emptyGw).2).2.upstreamCalls =
      (get_coins_list listOracle 0 "USD" 20 0 emptyGw).2.upstreamCalls ∧
    (search_coins searchOracle 100 "btc" "USD" 2
        (search_coins searchOracle 0 "btc" "USD" 2 emptyGw).2).2.upstreamCalls =
      (search_coins searchOracle 0 "btc" "USD" 2 emptyGw).2.upstreamCalls ∧
    (get_market_overview btcOracle 100 "USD"
        (get_market_overview btcOracle 0 "USD" emptyGw).2).2.upstreamCalls =
      (get_market_overview btcOracle 0 "USD" emptyGw).2.upstreamCalls := by
  refine ⟨?_, ?_, ?_, ?_⟩
  · exact (repeat_within_ttl_single_upstream_call.1 btcOracle 0 100 "BTC" "USD"
      emptyGw btcPayload rfl rfl rfl (by decide)).2.2.2
  · exact (repeat_within_ttl_single_upstream_call.2.1 listOracle 0 100 "USD" 20 0
      emptyGw (.arr [btcPayload, coinETH]) rfl rfl rfl (by decide)).2.2.2
  · exact (repeat_within_ttl_single_upstream_call.2.2.1 searchOracle 0 100 "btc"
      "USD" 2 emptyGw wListing rfl rfl rfl rfl (by decide)).2.2.2
  · exact (repeat_within_ttl_single_upstream_call.2.2.2 btcOracle 0 100 "USD"
      emptyGw btcPayload rfl rfl rfl (by decide)).2.2.2

end CryptoAPI

